import Mathlib

/-! Shallow embedding of the initiative-bridge reconciliation core of the
obsidian-hwy-dnd-plugin repository: field translation and diffing from
src/bridge/fieldMapping.ts, and the orchestrator (connection lifecycle,
echo suppression, turn resolution, lifecycle sync) from
src/bridge/InitiativeBridgeManager.ts.

Modelling conventions:
* JS numbers are Int; absent or null fields are Option (undefined and null
  both collapse to none).
* JS truthiness on optional booleans, strings and numbers is made explicit
  through small helper functions.
* The orchestrator's mutable instance fields become an explicit BridgeState
  record threaded through the handlers; writes toward Firestore and toward
  the local Initiative Tracker (IT) store are returned as explicit values
  instead of performed.
* JS Map built by repeated set carries last-wins semantics for duplicate
  keys; lookups are modelled as last-match searches.
* Array.prototype.sort is a stable sort; with the comparator of the source
  it is modelled by List.insertionSort over the total preorder derived from
  that comparator (cmp a b is at most 0), which produces the unique stable
  sorted order. -/

namespace HwyBridge

/-- JS truthiness of an optional boolean (undefined is falsy). -/
def truthyB (o : Option Bool) : Bool := o.getD false

/-- JS truthiness of an optional string (undefined and the empty string are falsy). -/
def truthyS (o : Option String) : Bool :=
  match o with
  | some s => s ≠ ""
  | none => false

/-- JS truthiness of an optional number (undefined and 0 are falsy). -/
def truthyI (o : Option Int) : Bool :=
  match o with
  | some v => v ≠ 0
  | none => false

/-- JS comparison v is at most 0 on an optional number: undefined yields false
(NaN comparison), a present value compares normally. -/
def jsLeZero (o : Option Int) : Bool :=
  match o with
  | some v => v ≤ 0
  | none => false

/-- Webapp combatant record (Firestore document entry), from the
WebappCombatant interface of fieldMapping.ts. -/
structure WebappCombatant where
  id : Option String := none
  name : String := ""
  type : String := "Monster"
  initiative : Option Int := none
  hp : Option Int := none
  maxHp : Option Int := none
  tempHp : Option Int := none
  ac : Option Int := none
  isDead : Option Bool := none
  isHiddenFromPlayers : Option Bool := none
  deathRound : Option Int := none
  pcId : Option String := none
  tieBreaker : Option Int := none
  initiative_modifier : Option Int := none
  obsidianId : Option String := none
deriving Repr, DecidableEq, Inhabited

/-- IT plugin CreatureState (itPluginAccess.ts). The modifier field of the
source is number or number-array; the array case reads index 0, so it is
collapsed to a single optional number. The ac field of the source is number
or string; a string parses with parseInt and defaults to 0, so it is
collapsed to an optional number. -/
structure ITCreatureState where
  name : String := ""
  display : Option String := none
  initiative : Option Int := none
  hp : Option Int := none
  currentHP : Option Int := none
  currentMaxHP : Option Int := none
  tempHP : Option Int := none
  ac : Option Int := none
  modifier : Option Int := none
  player : Bool := false
  friendly : Bool := false
  hidden : Option Bool := none
  active : Option Bool := none
  id : String := ""
deriving Repr, DecidableEq, Inhabited

/-- JS a or-else b for an optional string against a string default
(the or operator falls through on the empty string). -/
def jsOrS (a : Option String) (b : String) : String :=
  match a with
  | some s => if s = "" then b else s
  | none => b

/-- itCreatureToWebappCombatant from fieldMapping.ts: map an IT CreatureState
to the webapp combatant shape. -/
def itCreatureToWebappCombatant (creature : ITCreatureState) : WebappCombatant :=
  let isPlayer := creature.player
  let name := jsOrS creature.display creature.name
  let type_ :=
    if isPlayer then "Player Character"
    else if creature.friendly then "Summon"
    else "Monster"
  { name := name
    type := type_
    initiative := creature.initiative
    hp := some ((creature.currentHP.orElse fun _ => creature.hp).getD 0)
    maxHp := some ((creature.currentMaxHP.orElse fun _ => creature.hp).getD 0)
    tempHp := some (creature.tempHP.getD 0)
    ac := some (creature.ac.getD 0)
    isDead := some (((creature.currentHP.orElse fun _ => creature.hp).getD 1) ≤ 0)
    isHiddenFromPlayers := some (creature.hidden.getD (!isPlayer))
    initiative_modifier := some (creature.modifier.getD 0) }

/-- HomebrewCreature shape produced by webappCombatantToITCreature. -/
structure HomebrewCreature where
  name : String
  hp : Int
  ac : Int
  modifier : Int
  player : Bool
  friendly : Bool
  hidden : Bool
deriving Repr, DecidableEq, Inhabited

/-- webappCombatantToITCreature from fieldMapping.ts. -/
def webappCombatantToITCreature (combatant : WebappCombatant) : HomebrewCreature :=
  { name := combatant.name
    hp := (combatant.maxHp.orElse fun _ => combatant.hp).getD 0
    ac := combatant.ac.getD 0
    modifier := combatant.initiative_modifier.getD 0
    player := combatant.type = "Player Character"
    friendly := combatant.type = "Summon" || combatant.type = "Player Character"
    hidden := false }

/-- The partial-change record built by diffCombatants: an outer none means the
key is absent from the changes object. -/
structure CombatantChanges where
  hp : Option (Option Int) := none
  maxHp : Option (Option Int) := none
  ac : Option (Option Int) := none
  initiative : Option (Option Int) := none
  isDead : Option (Option Bool) := none
  isHiddenFromPlayers : Option (Option Bool) := none
deriving Repr, DecidableEq, Inhabited

/-- Field-by-field comparison of the changed-detection loop in diffCombatants. -/
def computeChanges (oldC newC : WebappCombatant) : CombatantChanges :=
  { hp := if oldC.hp ≠ newC.hp then some newC.hp else none
    maxHp := if oldC.maxHp ≠ newC.maxHp then some newC.maxHp else none
    ac := if oldC.ac ≠ newC.ac then some newC.ac else none
    initiative := if oldC.initiative ≠ newC.initiative then some newC.initiative else none
    isDead := if oldC.isDead ≠ newC.isDead then some newC.isDead else none
    isHiddenFromPlayers :=
      if oldC.isHiddenFromPlayers ≠ newC.isHiddenFromPlayers
      then some newC.isHiddenFromPlayers else none }

/-- Object.keys(changes).length is 0. -/
def changesIsEmpty (ch : CombatantChanges) : Bool :=
  ch.hp.isNone && ch.maxHp.isNone && ch.ac.isNone && ch.initiative.isNone &&
    ch.isDead.isNone && ch.isHiddenFromPlayers.isNone

structure DiffResult where
  added : List WebappCombatant
  removed : List WebappCombatant
  changed : List (WebappCombatant × CombatantChanges)
deriving Repr, DecidableEq

/-- Value stored under a name key in a JS Map built from a combatant list:
the last entry with that name wins. -/
def mapGetLastByName (l : List WebappCombatant) (n : String) : Option WebappCombatant :=
  (l.filter fun c => c.name = n).getLast?

/-- Key iteration order of a JS Map built from a combatant list: distinct
names in order of first insertion. -/
def distinctNamesInOrder (l : List WebappCombatant) : List String :=
  (l.map (·.name)).eraseDups

/-- diffCombatants from fieldMapping.ts: name-keyed diff of two combatant
lists into added, removed and changed sets. -/
def diffCombatants (oldList newList : List WebappCombatant) : DiffResult :=
  let added := newList.filter fun c => !(oldList.any fun o => o.name = c.name)
  let removed := oldList.filter fun c => !(newList.any fun o => o.name = c.name)
  let changed := (distinctNamesInOrder newList).filterMap fun n =>
    match mapGetLastByName newList n, mapGetLastByName oldList n with
    | some newC, some oldC =>
        let ch := computeChanges oldC newC
        if changesIsEmpty ch then none else some (newC, ch)
    | _, _ => none
  { added := added, removed := removed, changed := changed }

/-- A live IT creature as read through getOrderedCreatures. displayName is
getCreatureDisplayName (the numbered full name from getName); hp, initiative,
hidden and active are the live properties read by the orchestrator; st is the
toJSON CreatureState used for conversion. The creature id and player flag are
those of st. -/
structure LiveCreature where
  displayName : String := ""
  hp : Option Int := none
  initiative : Option Int := none
  hidden : Option Bool := none
  active : Option Bool := none
  st : ITCreatureState := {}
deriving Repr, DecidableEq, Inhabited

def LiveCreature.id (c : LiveCreature) : String := c.st.id

def LiveCreature.player (c : LiveCreature) : Bool := c.st.player

/-- One entry of lastITCreatureMap (snapshotITState). -/
structure PrevCreature where
  name : String
  hp : Int
  initiative : Int
  hidden : Bool
  active : Bool
deriving Repr, DecidableEq, Inhabited

def snapshotOf (c : LiveCreature) : PrevCreature :=
  { name := c.displayName
    hp := c.hp.getD 0
    initiative := c.initiative.getD 0
    hidden := c.hidden.getD false
    active := c.active.getD false }

/-- snapshotITState: rebuild the id set and id-to-state map from the live
creatures. The JS Set and Map are modelled as lists; only emptiness and
membership of the set, and last-wins lookups of the map, are ever consulted,
on which the list model agrees with the JS collections. -/
def snapshotITState (live : List LiveCreature) : List String × List (String × PrevCreature) :=
  (live.map (·.id), live.map fun c => (c.id, snapshotOf c))

/-- Lookup in a JS Map built by repeated set: the last binding of a key wins. -/
def mapGetLast (l : List (String × PrevCreature)) (k : String) : Option PrevCreature :=
  match l with
  | [] => none
  | (k2, v) :: rest =>
      match mapGetLast rest k with
      | some r => some r
      | none => if k2 = k then some v else none

/-- Firestore tracker document data as read by the orchestrator. -/
structure FsData where
  name : String := ""
  combatants : List WebappCombatant := []
  round : Option Int := none
  turn : Option Int := none
deriving Repr, DecidableEq, Inhabited

/-- The mutable instance fields of InitiativeBridgeManager. -/
structure BridgeState where
  isConnected : Bool := false
  isDisconnecting : Bool := false
  caravanId : Option String := none
  trackerId : Option String := none
  firestoreSubscribed : Bool := false
  itSubscribed : Bool := false
  suppressFirestoreUntil : Int := 0
  suppressITUntil : Int := 0
  lastFirestoreState : Option FsData := none
  lastITCreatureIds : List String := []
  lastITCreatureMap : List (String × PrevCreature) := []
deriving Repr, DecidableEq, Inhabited

/-- A mutation the orchestrator performs toward the local IT store. -/
inductive ITWrite where
  | setActiveTurn (name : String)
  | setInitiative (name : String) (v : Int)
  | kill (name : String)
  | addCreature (c : HomebrewCreature) (initiative : Int)
  | removeByName (name : String)
  | setHidden (name : String) (v : Bool)
deriving Repr, DecidableEq

/-- The partial update object handed to updateDoc by handleITStateChange
(updatedAt excluded: it is always present and carries no state). A none field
is an absent key. The source never puts a round key in this object; the field
exists so that absence is expressible. -/
structure FsUpdate where
  turn : Option Int := none
  round : Option Int := none
  combatants : Option (List WebappCombatant) := none
deriving Repr, DecidableEq, Inhabited

/-- Object.keys(firestoreUpdate).length is larger than 1 (updatedAt always
counts for one). -/
def FsUpdate.nonTrivial (u : FsUpdate) : Bool :=
  u.turn.isSome || u.round.isSome || u.combatants.isSome

/-- The sort comparator of handleFirestoreTurnChange and handleITStateChange,
as the total preorder cmp a b is at most 0: initiative descending, ties by
tieBreaker descending, absent values defaulting to 0. -/
def initLeB (a b : WebappCombatant) : Bool :=
  let ia := a.initiative.getD 0
  let ib := b.initiative.getD 0
  if ia = ib then decide (b.tieBreaker.getD 0 ≤ a.tieBreaker.getD 0)
  else decide (ib < ia)

def initLe : WebappCombatant → WebappCombatant → Prop := fun a b => initLeB a b = true

instance : DecidableRel initLe := fun a b => inferInstanceAs (Decidable (initLeB a b = true))

instance : IsTotal WebappCombatant initLe := by
  constructor
  intro a b
  simp only [initLe, initLeB]
  split_ifs <;> simp only [decide_eq_true_eq] <;> omega

instance : IsTrans WebappCombatant initLe := by
  constructor
  intro a b c hab hbc
  simp only [initLe, initLeB] at hab hbc ⊢
  split_ifs at hab hbc ⊢ <;> simp only [decide_eq_true_eq] at hab hbc ⊢ <;> omega

/-- The stable sort of a combatant array with the source comparator. -/
def sortCombatants (l : List WebappCombatant) : List WebappCombatant :=
  List.insertionSort initLe l

/-- The non-dead filter applied before sorting for turn resolution. -/
def nonDead (l : List WebappCombatant) : List WebappCombatant :=
  l.filter fun c => !truthyB c.isDead

/-- findITCreatureName: resolve the IT-side display name of a webapp
combatant, preferring the obsidianId match, falling back to the stored name. -/
def findITCreatureName (live : List LiveCreature) (combatant : WebappCombatant) : String :=
  match combatant.obsidianId with
  | some oid =>
      match live.find? fun c => c.id = oid with
      | some m => m.displayName
      | none => combatant.name
  | none => combatant.name

/-- handleFirestoreTurnChange: resolve the active combatant from the remote
turn index over the freshly sorted non-dead list and instruct the local
session to activate it, under local-side echo suppression. An empty non-dead
set is a no-op. -/
def handleFirestoreTurnChange (s : BridgeState) (live : List LiveCreature)
    (data : FsData) (now : Int) : BridgeState × List ITWrite :=
  let sorted := sortCombatants (nonDead data.combatants)
  if sorted.length = 0 then (s, [])
  else
    let t := data.turn.getD 0
    let target? := if t < 0 then none else sorted[t.toNat % sorted.length]?
    match target? with
    | none => (s, [])
    | some target =>
        let itName := findITCreatureName live target
        if itName = "" then (s, [])
        else ({ s with suppressITUntil := now + 2000 }, [ITWrite.setActiveTurn itName])

/-- The combatant array of the last known Firestore state, defaulting to the
empty array (this.lastFirestoreState?.combatants or-else the empty array). -/
def currentCombatants (s : BridgeState) : List WebappCombatant :=
  (s.lastFirestoreState.map (·.combatants)).getD []

/-- disconnect: tear down subscriptions and clear all in-memory state. The
transient isDisconnecting flag is raised and lowered within the call; the
returned state is the post-teardown state. -/
def disconnect (s : BridgeState) : BridgeState :=
  { s with
      isConnected := false
      isDisconnecting := false
      firestoreSubscribed := false
      itSubscribed := false
      caravanId := none
      trackerId := none
      lastFirestoreState := none
      lastITCreatureIds := []
      lastITCreatureMap := [] }

/-- connect: tear down any previous connection, store the target ids, flag
connected, snapshot the current local state as baseline, and start both
subscriptions. The source performs no reachability check on the IT plugin:
when it is unreachable, getOrderedCreatures returns the empty list and the
baseline snapshot is simply empty. startFirestoreListener subscribes when the
ids are truthy (getDb always yields a store); startITListeners registers the
workspace events unconditionally. itAvailable says whether the local IT store
is reachable; live is what getOrderedCreatures would return when it is. -/
def connect (s : BridgeState) (itAvailable : Bool) (live : List LiveCreature)
    (caravanId trackerId : String) : BridgeState × Except String Unit :=
  let s0 := if s.isConnected then disconnect s else s
  let s1 := { s0 with
      caravanId := some caravanId
      trackerId := some trackerId
      isConnected := true }
  let creatures := if itAvailable then live else []
  let (ids, mp) := snapshotITState creatures
  let s2 := { s1 with lastITCreatureIds := ids, lastITCreatureMap := mp }
  let s3 := { s2 with
      firestoreSubscribed := truthyS s2.caravanId && truthyS s2.trackerId
      itSubscribed := true }
  (s3, Except.ok ())

/-- Membership of an entry in the name-keyed JS Map of a combatant list. -/
def hasName (l : List WebappCombatant) (n : String) : Bool :=
  l.any fun pc => decide (pc.name = n)

/-- An entry of the obsidianId-keyed JS Map matches a key: only entries with a
truthy obsidianId are inserted. -/
def obsIdMatches (fc : WebappCombatant) (oid : String) : Bool :=
  truthyS fc.obsidianId && decide (fc.obsidianId = some oid)

/-- Value under a key of the obsidianId-keyed JS Map: last matching entry. -/
def lastByObsId (l : List WebappCombatant) (oid : String) : Option WebappCombatant :=
  (l.filter fun pc => obsIdMatches pc oid).getLast?

/-- Value under a key of the name-keyed JS Map: last matching entry. -/
def lastByName (l : List WebappCombatant) (n : String) : Option WebappCombatant :=
  (l.filter fun pc => decide (pc.name = n)).getLast?

/-- isNew test of the added-detection loop of handleFirestoreChange: a truthy
obsidianId is looked up in the previous obsidianId map, otherwise the name map. -/
def isNewFromFirestore (prevCombatants : List WebappCombatant) (c : WebappCombatant) : Bool :=
  match c.obsidianId with
  | some oid =>
      if oid = "" then !hasName prevCombatants c.name
      else !(prevCombatants.any fun pc => obsIdMatches pc oid)
  | none => !hasName prevCombatants c.name

/-- isRemoved test of the removed-detection loop of handleFirestoreChange. -/
def isRemovedFromFirestore (newCombatants : List WebappCombatant) (pc : WebappCombatant) : Bool :=
  match pc.obsidianId with
  | some oid =>
      if oid = "" then !hasName newCombatants pc.name
      else !(newCombatants.any fun nc => obsIdMatches nc oid)
  | none => !hasName newCombatants pc.name

/-- Previous-version lookup used by the initiative and death loops of
handleFirestoreChange. -/
def prevLookup (prevCombatants : List WebappCombatant) (c : WebappCombatant) :
    Option WebappCombatant :=
  match c.obsidianId with
  | some oid =>
      if oid = "" then lastByName prevCombatants c.name
      else lastByObsId prevCombatants oid
  | none => lastByName prevCombatants c.name

/-- handleNewCombatantFromFirestore: skip when the local session already holds
the creature (by obsidianId, then by display name); otherwise add it locally
under echo suppression. The third component reports whether an obsidianId
assignment was requested (the source fires assignObsidianId asynchronously
when the combatant has no truthy obsidianId). -/
def handleNewCombatantFromFirestore (s : BridgeState) (live : List LiveCreature)
    (combatant : WebappCombatant) (now : Int) : BridgeState × List ITWrite × Bool :=
  let skipById :=
    match combatant.obsidianId with
    | some oid => if oid = "" then false else live.any fun c => decide (c.id = oid)
    | none => false
  if skipById then (s, [], false)
  else if live.any fun c => decide (c.displayName = combatant.name) then (s, [], false)
  else
    ({ s with suppressITUntil := now + 2000 },
     [ITWrite.addCreature (webappCombatantToITCreature combatant) (combatant.initiative.getD 0)],
     !truthyS combatant.obsidianId)

/-- assignObsidianId: find the just-added live creature by display or base
name, and write the combatant list back with the creature id stored as
obsidianId on every combatant whose id or name matches, under remote-side
echo suppression. The returned list is the combatants field handed to
updateDoc; none means no write. -/
def assignObsidianId (s : BridgeState) (live : List LiveCreature)
    (combatant : WebappCombatant) (now : Int) : BridgeState × Option (List WebappCombatant) :=
  if !truthyS s.caravanId || !truthyS s.trackerId then (s, none)
  else
    match live.find? fun c =>
        decide (c.displayName = combatant.name) || decide (c.st.name = combatant.name) with
    | none => (s, none)
    | some m =>
        let obsidianId := m.id
        let updated := (currentCombatants s).map fun c =>
          if decide (c.id = combatant.id) || decide (c.name = combatant.name)
          then { c with obsidianId := some obsidianId } else c
        ({ s with suppressFirestoreUntil := now + 2000 }, some updated)

/-- handleRemovedCombatantFromFirestore: remove the matching local creature by
resolved name, under local-side echo suppression. -/
def handleRemovedCombatantFromFirestore (s : BridgeState) (live : List LiveCreature)
    (combatant : WebappCombatant) (now : Int) : BridgeState × List ITWrite :=
  let itName := findITCreatureName live combatant
  if itName = "" then (s, [])
  else ({ s with suppressITUntil := now + 2000 }, [ITWrite.removeByName itName])

/-- The turn-change dispatch of handleFirestoreChange: a previous state whose
turn index differs triggers the turn resolution. -/
def turnChangeStep (s : BridgeState) (live : List LiveCreature) (data : FsData)
    (prevData : Option FsData) (now : Int) : BridgeState × List ITWrite :=
  match prevData with
  | some p =>
      if data.turn ≠ p.turn then handleFirestoreTurnChange s live data now else (s, [])
  | none => (s, [])

/-- The added-detection loop of handleFirestoreChange: each combatant absent
from the previous maps is handed to handleNewCombatantFromFirestore; the
third component collects the combatants for which an assignObsidianId call
was requested. -/
def newCombatantsLoop (live : List LiveCreature) (prevCombatants combatants : List WebappCombatant)
    (now : Int) (init : BridgeState × List ITWrite × List WebappCombatant) :
    BridgeState × List ITWrite × List WebappCombatant :=
  combatants.foldl
    (fun acc c =>
      match acc with
      | (st, ws, asg) =>
        if isNewFromFirestore prevCombatants c then
          match handleNewCombatantFromFirestore st live c now with
          | (st2, ws2, req) => (st2, ws ++ ws2, if req then asg ++ [c] else asg)
        else (st, ws, asg))
    init

/-- The removed-detection loop of handleFirestoreChange: each previous
combatant absent from the new maps is handed to
handleRemovedCombatantFromFirestore. -/
def removedCombatantsLoop (live : List LiveCreature)
    (prevCombatants combatants : List WebappCombatant) (now : Int)
    (init : BridgeState × List ITWrite) : BridgeState × List ITWrite :=
  prevCombatants.foldl
    (fun acc pc =>
      match acc with
      | (st, ws) =>
        if isRemovedFromFirestore combatants pc then
          match handleRemovedCombatantFromFirestore st live pc now with
          | (st2, ws2) => (st2, ws ++ ws2)
        else (st, ws))
    init

/-- The initiative-change loop of handleFirestoreChange: a changed, non-null
remote initiative sets the local-side suppression deadline and, when the
creature resolves to a name, emits the local initiative write. -/
def initiativeLoop (live : List LiveCreature)
    (prevCombatants combatants : List WebappCombatant) (now : Int)
    (init : BridgeState × List ITWrite) : BridgeState × List ITWrite :=
  combatants.foldl
    (fun acc c =>
      match acc with
      | (st, ws) =>
        match prevLookup prevCombatants c with
        | some prev =>
            if decide (prev.initiative ≠ c.initiative) && c.initiative.isSome then
              let st2 := { st with suppressITUntil := now + 2000 }
              let itName := findITCreatureName live c
              if itName = "" then (st2, ws)
              else (st2, ws ++ [ITWrite.setInitiative itName (c.initiative.getD 0)])
            else (st, ws)
        | none => (st, ws))
    init

/-- The death-detection loop of handleFirestoreChange: a not-dead-to-dead
transition sets the local-side suppression deadline and, when the creature
resolves to a name, emits the local kill write. -/
def deathLoop (live : List LiveCreature)
    (prevCombatants combatants : List WebappCombatant) (now : Int)
    (init : BridgeState × List ITWrite) : BridgeState × List ITWrite :=
  combatants.foldl
    (fun acc c =>
      match acc with
      | (st, ws) =>
        match prevLookup prevCombatants c with
        | some prev =>
            if !truthyB prev.isDead && truthyB c.isDead then
              let st2 := { st with suppressITUntil := now + 2000 }
              let itName := findITCreatureName live c
              if itName = "" then (st2, ws)
              else (st2, ws ++ [ITWrite.kill itName])
            else (st, ws)
        | none => (st, ws))
    init

/-- handleFirestoreChange: dispatch a remote snapshot against the previous one:
turn change, added, removed, initiative and death detection, in source order.
Character-listener maintenance performs no writes toward either store and is
not modelled. The last component collects the combatants for which an
asynchronous assignObsidianId call was requested. -/
def handleFirestoreChange (s : BridgeState) (itAvailable : Bool) (live : List LiveCreature)
    (data : FsData) (prevData : Option FsData) (now : Int) :
    BridgeState × List ITWrite × List WebappCombatant :=
  if !itAvailable then (s, [], [])
  else
    let combatants := data.combatants
    let prevCombatants := (prevData.map (·.combatants)).getD []
    let step1 := turnChangeStep s live data prevData now
    let step2 := newCombatantsLoop live prevCombatants combatants now (step1.1, step1.2, [])
    let step3 := removedCombatantsLoop live prevCombatants combatants now (step2.1, step2.2.1)
    let step4 := initiativeLoop live prevCombatants combatants now step3
    let step5 := deathLoop live prevCombatants combatants now step4
    (step5.1, step5.2, step2.2.2)

/-- A delivery of the remote change feed: the document was deleted, or a data
snapshot arrived. -/
inductive FsEvent where
  | deleted
  | snapshot (d : FsData)
deriving Repr, DecidableEq

/-- The onSnapshot callback installed by startFirestoreListener: deletion
forces a disconnect; a data snapshot arriving inside the suppression window
is absorbed into lastFirestoreState and discarded; otherwise
lastFirestoreState is updated first and the change is processed against the
previous state. -/
def firestoreSnapshotStep (s : BridgeState) (itAvailable : Bool) (live : List LiveCreature)
    (ev : FsEvent) (now : Int) : BridgeState × List ITWrite × List WebappCombatant :=
  match ev with
  | FsEvent.deleted => (disconnect s, [], [])
  | FsEvent.snapshot d =>
      if now < s.suppressFirestoreUntil then
        ({ s with lastFirestoreState := some d }, [], [])
      else
        let prevState := s.lastFirestoreState
        handleFirestoreChange { s with lastFirestoreState := some d } itAvailable live d prevState now

/-- Index of the last element satisfying a predicate (JS Map values built by
repeated set point at the last entry with a key; positions stand in for the
object identities of the mutable array entries). -/
def findLastIdx (p : α → Bool) : List α → Option Nat
  | [] => none
  | x :: xs =>
      match findLastIdx p xs with
      | some i => some (i + 1)
      | none => if p x then some 0 else none

/-- Position of firestoreByObsId.get(id) or-else firestoreByName.get(name) in
the current combatant array of handleITStateChange. -/
def fsMatchIdx (combs : List WebappCombatant) (oid name : String) : Option Nat :=
  match findLastIdx (fun fc => obsIdMatches fc oid) combs with
  | some i => some i
  | none => findLastIdx (fun fc => decide (fc.name = name)) combs

/-- New-monster test of handleITStateChange: not in the tracked id set, and in
neither the obsidianId map nor the name map of the current remote list. -/
def isNewMonster (s : BridgeState) (current : List WebappCombatant) (c : LiveCreature) : Bool :=
  !decide (c.id ∈ s.lastITCreatureIds) &&
    !(current.any fun fc => obsIdMatches fc c.id) &&
    !(current.any fun fc => decide (fc.name = c.displayName))

/-- Conversion of a live creature to a fresh webapp combatant, as done by
createNewTracker, mergeWithExistingTracker and the new-monster branch of
handleITStateChange: full display name, a fresh obs-prefixed id, and the IT
creature id stored as obsidianId. -/
def toNewCombatant (c : LiveCreature) (now : Int) : WebappCombatant :=
  { itCreatureToWebappCombatant c.st with
      name := c.displayName
      id := some ("obs_" ++ c.id ++ "_" ++ toString now)
      obsidianId := some c.id }

/-- Accumulator of the per-creature change-detection loop of
handleITStateChange: the (in-place mutated) remote combatant array, the turn
index found so far, and the needsFullCombatantUpdate flag. -/
structure LoopAcc where
  combs : List WebappCombatant
  turn : Option Int := none
  needsFull : Bool := false
deriving Repr, DecidableEq

/-- One iteration of the change-detection loop of handleITStateChange:
hp (non-players only, with death marking and death-round stamping), hidden
flag, initiative, and active-turn transition against the snapshot. Mutations
of the matched combatant object are modelled by updating its position. -/
def creatureStep (s : BridgeState) (acc : LoopAcc) (c : LiveCreature) : LoopAcc :=
  match mapGetLast s.lastITCreatureMap c.id with
  | none => acc
  | some prev =>
      match fsMatchIdx acc.combs c.id c.displayName with
      | none => acc
      | some i =>
          match acc.combs[i]? with
          | none => acc
          | some fc0 =>
              let hpChanged := !c.player && decide (c.hp ≠ some prev.hp)
              let fc1 :=
                if hpChanged then
                  let fcA := { fc0 with hp := c.hp, isDead := some (jsLeZero c.hp) }
                  if jsLeZero c.hp && !truthyI fcA.deathRound then
                    { fcA with deathRound := s.lastFirestoreState.bind (·.round) }
                  else fcA
                else fc0
              let hidChanged := decide (c.hidden ≠ some prev.hidden)
              let fc2 := if hidChanged then { fc1 with isHiddenFromPlayers := c.hidden } else fc1
              let iniChanged := decide (c.initiative ≠ some prev.initiative)
              let fc3 := if iniChanged then { fc2 with initiative := c.initiative } else fc2
              let combs2 := acc.combs.set i fc3
              let turn2 :=
                if truthyB c.active && !prev.active then
                  let activeSorted := sortCombatants (nonDead combs2)
                  match activeSorted.findIdx? (fun fcx =>
                      decide (fcx.obsidianId = some c.id) || decide (fcx.name = c.displayName)) with
                  | some j => some (j : Int)
                  | none => acc.turn
                else acc.turn
              { combs := combs2
                turn := turn2
                needsFull := acc.needsFull || hpChanged || hidChanged || iniChanged }

/-- The enemy auto-reveal block of handleITStateChange: when the active
creature is a hidden non-player and its remote match is flagged hidden, clear
the remote flag in the array and emit the local unhide write. -/
def autoReveal (live : List LiveCreature) (acc : LoopAcc) : LoopAcc × List ITWrite :=
  match live.find? fun c => truthyB c.active with
  | none => (acc, [])
  | some a =>
      if !a.player && truthyB a.hidden then
        match fsMatchIdx acc.combs a.id a.displayName with
        | none => (acc, [])
        | some i =>
            match acc.combs[i]? with
            | none => (acc, [])
            | some fc =>
                if truthyB fc.isHiddenFromPlayers then
                  ({ acc with
                      combs := acc.combs.set i { fc with isHiddenFromPlayers := some false }
                      needsFull := true },
                   [ITWrite.setHidden a.displayName false])
                else (acc, [])
      else (acc, [])

/-- Decidable form of the auto-reveal guard against a given remote list. -/
def autoRevealPending (combs : List WebappCombatant) (live : List LiveCreature) : Bool :=
  match live.find? fun c => truthyB c.active with
  | none => false
  | some a =>
      !a.player && truthyB a.hidden &&
        (match fsMatchIdx combs a.id a.displayName with
         | some i =>
             match combs[i]? with
             | some fc => truthyB fc.isHiddenFromPlayers
             | none => false
         | none => false)

/-- Contract of the local-session setHidden capability (updateCreatureByName):
the hidden flag of the creatures matching the name is set. -/
def applySetHidden (live : List LiveCreature) (n : String) (v : Bool) : List LiveCreature :=
  live.map fun c =>
    if decide (c.displayName = n) || decide (c.st.name = n) then { c with hidden := some v } else c

/-- handleITStateChange: diff the live IT creatures against the tracked
snapshot and the last-known remote list; collect new monsters (append only,
never remove), per-creature field changes, active-turn transition and the
enemy auto-reveal; write one partial update under remote-side suppression
when anything changed, and re-snapshot the (possibly unhidden) live state. -/
def handleITStateChange (s : BridgeState) (live : List LiveCreature) (now : Int) :
    BridgeState × Option FsUpdate × List ITWrite :=
  if !truthyS s.caravanId || !truthyS s.trackerId then (s, none, [])
  else
    let current := currentCombatants s
    let newMonsters := (live.filter (isNewMonster s current)).map (toNewCombatant · now)
    let acc0 : LoopAcc := { combs := current, turn := none, needsFull := !newMonsters.isEmpty }
    let acc1 := live.foldl (creatureStep s) acc0
    let step := autoReveal live acc1
    let acc2 := step.1
    let itWrites := step.2
    let update : FsUpdate :=
      { turn := acc2.turn
        round := none
        combatants := if acc2.needsFull then some (acc2.combs ++ newMonsters) else none }
    let liveAfter := itWrites.foldl
      (fun lv w =>
        match w with
        | ITWrite.setHidden n v => applySetHidden lv n v
        | _ => lv)
      live
    let snap := snapshotITState liveAfter
    let s1 := { s with
        lastFirestoreState := s.lastFirestoreState.map fun d => { d with combatants := acc2.combs }
        lastITCreatureIds := snap.1
        lastITCreatureMap := snap.2 }
    if update.nonTrivial then
      ({ s1 with suppressFirestoreUntil := now + 2000 }, some update, itWrites)
    else (s1, none, itWrites)

/-- New-encounter guard of the save-state callback: previously tracked
creatures exist and none of them is still present. -/
def itNewEncounterGuard (s : BridgeState) (live : List LiveCreature) : Bool :=
  let liveIds := live.map (·.id)
  let matchCount := (s.lastITCreatureIds.filter fun i => decide (i ∈ liveIds)).length
  decide (0 < s.lastITCreatureIds.length) && decide (matchCount = 0)

/-- The save-state callback installed by startITListeners: inactive or
tearing-down connections ignore the event; a notification on which none of
the previously tracked creatures survives is treated as a new encounter and
skipped entirely; a notification inside the suppression window is absorbed
into the snapshot and discarded; otherwise the full local-to-remote cycle
runs. The event payload carries the local round, which the handler never
reads. -/
def itSaveStateStep (s : BridgeState) (live : List LiveCreature) (_stateRound : Int)
    (now : Int) : BridgeState × Option FsUpdate × List ITWrite :=
  if !s.isConnected || s.isDisconnecting then (s, none, [])
  else
    if itNewEncounterGuard s live then (s, none, [])
    else if now < s.suppressITUntil then
      let snap := snapshotITState live
      ({ s with lastITCreatureIds := snap.1, lastITCreatureMap := snap.2 }, none, [])
    else handleITStateChange s live now

/-- The tracker document created by createNewTracker. -/
structure TrackerDoc where
  name : String
  combatants : List WebappCombatant
  round : Int
  turn : Int
deriving Repr, DecidableEq

/-- createNewTracker: build a fresh shared record from the full local list,
every combatant carrying its creature id as bridge identity, round 1, turn 0. -/
def createNewTracker (live : List LiveCreature) (name : String) (now : Int) : TrackerDoc :=
  { name := name
    combatants := live.map (toNewCombatant · now)
    round := 1
    turn := 0 }

/-- mergeWithExistingTracker: append the local creatures whose id is not yet
present as a bridge identity in the record, skipping players; none means the
record is left untouched (no write). -/
def mergeWithExistingTracker (existingCombatants : List WebappCombatant)
    (live : List LiveCreature) (now : Int) : Option (List WebappCombatant) :=
  let existingObsidianIds :=
    (existingCombatants.filter fun c => truthyS c.obsidianId).filterMap (·.obsidianId)
  let newCombatants := live.filterMap fun c =>
    if decide (c.st.id ∈ existingObsidianIds) then none
    else if c.st.player then none
    else some (toNewCombatant c now)
  if 0 < newCombatants.length then some (existingCombatants ++ newCombatants) else none

/-- The identity-bearing fields of a webapp combatant: display name, record id
and bridge identity. The sync-cycle field mutations never touch these. -/
def identityOf (fc : WebappCombatant) : String × Option String × Option String :=
  (fc.name, fc.id, fc.obsidianId)

/-! Concrete inputs used by scenario conjuncts, witnesses and counterexamples. -/

def sampleFighter : WebappCombatant := { name := "Fighter", initiative := some 20 }

def sampleRogue : WebappCombatant := { name := "Rogue", initiative := some 15 }

def sampleCleric : WebappCombatant := { name := "Cleric", initiative := some 10 }

/-- A remote snapshot with three non-dead combatants and turn index 5. -/
def sampleTurnData : FsData :=
  { combatants := [sampleCleric, sampleFighter, sampleRogue], turn := some 5 }

def goblinFc : WebappCombatant :=
  { id := some "w1"
    name := "Goblin"
    initiative := some 12
    isHiddenFromPlayers := some true
    obsidianId := some "g1" }

/-- A hidden non-player creature that just became active locally. -/
def goblinLive : LiveCreature :=
  { displayName := "Goblin"
    hp := some 7
    initiative := some 12
    hidden := some true
    active := some true
    st := { name := "Goblin", id := "g1" } }

def goblinPrev : PrevCreature :=
  { name := "Goblin", hp := 7, initiative := 12, hidden := true, active := false }

def goblinState : BridgeState :=
  { isConnected := true
    caravanId := some "c"
    trackerId := some "t"
    lastFirestoreState := some { combatants := [goblinFc], round := some 1, turn := some 0 }
    lastITCreatureIds := ["g1"]
    lastITCreatureMap := [("g1", goblinPrev)] }

def goblinFcRevealed : WebappCombatant := { goblinFc with isHiddenFromPlayers := some false }

/-- A live creature whose hp property is absent. -/
def wispLive : LiveCreature :=
  { displayName := "Wisp"
    hp := none
    initiative := some 5
    hidden := some false
    active := some false
    st := { name := "Wisp", id := "n1" } }

def wispFc : WebappCombatant :=
  { id := some "w9", name := "Wisp", initiative := some 5, obsidianId := some "n1" }

/-- A state whose snapshot agrees exactly with the wisp live state. -/
def wispState : BridgeState :=
  { isConnected := true
    caravanId := some "c"
    trackerId := some "t"
    lastFirestoreState := some { combatants := [wispFc], round := some 1, turn := some 0 }
    lastITCreatureIds := (snapshotITState [wispLive]).1
    lastITCreatureMap := (snapshotITState [wispLive]).2 }

def wispFcAfter : WebappCombatant := { wispFc with isDead := some false }

def wispUpdate : FsUpdate := { combatants := some [wispFcAfter] }

def ogreLive : LiveCreature :=
  { displayName := "Ogre"
    hp := some 30
    initiative := some 9
    hidden := some false
    active := some true
    st := { name := "Ogre", id := "o1" } }

def ogreFc : WebappCombatant :=
  { id := some "w3", name := "Ogre", initiative := some 9, obsidianId := some "o1" }

def ogrePrev : PrevCreature :=
  { name := "Ogre", hp := 30, initiative := 9, hidden := false, active := false }

/-- A connected state with a remote round of 1 whose ogre just became active. -/
def ogreState : BridgeState :=
  { isConnected := true
    caravanId := some "c"
    trackerId := some "t"
    lastFirestoreState := some { combatants := [ogreFc], round := some 1, turn := some 0 }
    lastITCreatureIds := ["o1"]
    lastITCreatureMap := [("o1", ogrePrev)] }

def assignA : WebappCombatant :=
  { id := some "w1", name := "Goblin", obsidianId := some "x" }

def assignB : WebappCombatant := { id := some "w2", name := "Goblin" }

/-- State in which two remote combatants share the display name Goblin and the
first already carries a bridge identity. -/
def assignState : BridgeState :=
  { isConnected := true
    caravanId := some "c"
    trackerId := some "t"
    lastFirestoreState := some { combatants := [assignA, assignB] }
    lastITCreatureIds := []
    lastITCreatureMap := [] }

/-- The live creature created by the local insert of assignB. -/
def assignLive : LiveCreature :=
  { displayName := "Goblin", st := { name := "Goblin", id := "y" } }

def shadeFc : WebappCombatant :=
  { id := some "w4"
    name := "Shade"
    initiative := some 14
    isHiddenFromPlayers := some true
    obsidianId := some "s1" }

/-- A hidden non-player creature, not active, matched by the remote target. -/
def shadeLive : LiveCreature :=
  { displayName := "Shade"
    hp := some 10
    initiative := some 14
    hidden := some true
    active := some false
    st := { name := "Shade", id := "s1" } }

/-- A remote snapshot whose turn index resolves to the hidden shade. -/
def shadeData : FsData := { combatants := [shadeFc], round := some 1, turn := some 1 }

def shadeState : BridgeState :=
  { isConnected := true
    caravanId := some "c"
    trackerId := some "t"
    lastFirestoreState := some shadeData
    lastITCreatureIds := ["s1"]
    lastITCreatureMap :=
      [("s1", { name := "Shade", hp := 10, initiative := 14, hidden := true, active := false })] }

/-- A live creature identical to the ogre but not active (all fields present). -/
def calmLive : LiveCreature :=
  { displayName := "Ogre"
    hp := some 30
    initiative := some 9
    hidden := some false
    active := some false
    st := { name := "Ogre", id := "o1" } }

/-- A connected state whose snapshot agrees exactly with the calm live state. -/
def calmState : BridgeState :=
  { isConnected := true
    caravanId := some "c"
    trackerId := some "t"
    lastFirestoreState := some { combatants := [ogreFc], round := some 1, turn := some 0 }
    lastITCreatureIds := (snapshotITState [calmLive]).1
    lastITCreatureMap := (snapshotITState [calmLive]).2 }

/-! Helper lemmas. -/

theorem list_set_self {α : Type _} (l : List α) (i : Nat) (x : α) (h : l[i]? = some x) :
    l.set i x = l := by
  induction l generalizing i with
  | nil => simp at h
  | cons a t ih =>
      cases i with
      | zero => simp_all
      | succ n =>
          simp only [List.getElem?_cons_succ] at h
          simp [ih n h]

theorem mapGetLast_eq_none (live : List LiveCreature) (k : String)
    (h : ∀ c ∈ live, c.id ≠ k) :
    mapGetLast (live.map fun c => (c.id, snapshotOf c)) k = none := by
  induction live with
  | nil => rfl
  | cons a t ih =>
      simp only [List.map_cons, mapGetLast]
      rw [ih fun c hc => h c (List.mem_cons_of_mem a hc)]
      rw [if_neg (h a (List.mem_cons_self a t))]

theorem mapGetLast_snapshot (live : List LiveCreature) (c : LiveCreature)
    (hnd : (live.map (·.id)).Nodup) (hc : c ∈ live) :
    mapGetLast (live.map fun x => (x.id, snapshotOf x)) c.id = some (snapshotOf c) := by
  induction live with
  | nil => cases hc
  | cons a t ih =>
      simp only [List.map_cons, List.nodup_cons] at hnd
      rcases List.mem_cons.mp hc with h | h
      · subst h
        simp only [List.map_cons, mapGetLast]
        rw [mapGetLast_eq_none t c.id fun x hx hxe =>
          hnd.1 (hxe ▸ List.mem_map_of_mem (·.id) hx)]
        simp
      · simp only [List.map_cons, mapGetLast]
        rw [ih hnd.2 h]

theorem foldl_fixed {α β : Type _} (f : β → α → β) (b : β) (l : List α)
    (h : ∀ a ∈ l, f b a = b) : l.foldl f b = b := by
  induction l with
  | nil => rfl
  | cons a t ih =>
      rw [List.foldl_cons, h a (List.mem_cons_self a t)]
      exact ih fun x hx => h x (List.mem_cons_of_mem a hx)

theorem identityOf_set (l : List WebappCombatant) (i : Nat) (fc fc' : WebappCombatant)
    (h : l[i]? = some fc) (hid : identityOf fc' = identityOf fc) :
    (l.set i fc').map identityOf = l.map identityOf := by
  rw [List.map_set]
  apply list_set_self
  rw [List.getElem?_map, h]
  simp [hid]

theorem creatureStep_identities (s : BridgeState) (acc : LoopAcc) (c : LiveCreature) :
    ((creatureStep s acc c).combs).map identityOf = acc.combs.map identityOf := by
  cases hm : mapGetLast s.lastITCreatureMap c.id with
  | none => simp only [creatureStep, hm]
  | some prev =>
      cases hf : fsMatchIdx acc.combs c.id c.displayName with
      | none => simp only [creatureStep, hm, hf]
      | some i =>
          cases hg : acc.combs[i]? with
          | none => simp only [creatureStep, hm, hf, hg]
          | some fc0 =>
              simp only [creatureStep, hm, hf, hg]
              apply identityOf_set _ _ fc0 _ hg
              simp only [identityOf]
              split_ifs <;> rfl

theorem autoReveal_identities (live : List LiveCreature) (acc : LoopAcc) :
    ((autoReveal live acc).1.combs).map identityOf = acc.combs.map identityOf := by
  cases hfind : live.find? fun c => truthyB c.active with
  | none => simp only [autoReveal, hfind]
  | some a =>
      cases hcond : (!a.player && truthyB a.hidden) with
      | false => simp only [autoReveal, hfind, hcond, Bool.false_eq_true, if_neg, ite_false]
      | true =>
          cases hf : fsMatchIdx acc.combs a.id a.displayName with
          | none => simp only [autoReveal, hfind, hcond, if_true, hf]
          | some i =>
              cases hg : acc.combs[i]? with
              | none => simp only [autoReveal, hfind, hcond, if_true, hf, hg]
              | some fc =>
                  cases hh : truthyB fc.isHiddenFromPlayers with
                  | false =>
                      simp only [autoReveal, hfind, hcond, if_true, hf, hg, hh,
                        Bool.false_eq_true, ite_false]
                  | true =>
                      simp only [autoReveal, hfind, hcond, if_true, hf, hg, hh, ite_true]
                      exact identityOf_set _ _ fc _ hg rfl

theorem foldl_creatureStep_identities (s : BridgeState) (live : List LiveCreature)
    (acc : LoopAcc) :
    ((live.foldl (creatureStep s) acc).combs).map identityOf = acc.combs.map identityOf := by
  induction live generalizing acc with
  | nil => rfl
  | cons a t ih =>
      rw [List.foldl_cons]
      rw [ih (creatureStep s acc a), creatureStep_identities]

theorem autoReveal_of_not_pending (live : List LiveCreature) (acc : LoopAcc)
    (h : autoRevealPending acc.combs live = false) :
    autoReveal live acc = (acc, []) := by
  cases hfind : live.find? fun c => truthyB c.active with
  | none => simp only [autoReveal, hfind]
  | some a =>
      simp only [autoRevealPending, hfind] at h
      cases hcond : (!a.player && truthyB a.hidden) with
      | false => simp [autoReveal, hfind, hcond]
      | true =>
          simp only [hcond, Bool.true_and] at h
          cases hf : fsMatchIdx acc.combs a.id a.displayName with
          | none => simp [autoReveal, hfind, hcond, hf]
          | some i =>
              simp only [hf] at h
              cases hg : acc.combs[i]? with
              | none => simp [autoReveal, hfind, hcond, hf, hg]
              | some fc =>
                  simp only [hg] at h
                  simp [autoReveal, hfind, hcond, hf, hg, h]

theorem combs_identities (s : BridgeState) (live : List LiveCreature)
    (cur : List WebappCombatant) (tn : Option Int) (nf : Bool) :
    ((autoReveal live (List.foldl (creatureStep s)
        { combs := cur, turn := tn, needsFull := nf } live)).1.combs).map identityOf =
      cur.map identityOf := by
  rw [autoReveal_identities, foldl_creatureStep_identities]

theorem combs_length (s : BridgeState) (live : List LiveCreature)
    (cur : List WebappCombatant) (tn : Option Int) (nf : Bool) :
    ((autoReveal live (List.foldl (creatureStep s)
        { combs := cur, turn := tn, needsFull := nf } live)).1.combs).length =
      cur.length := by
  have h := congrArg List.length (combs_identities s live cur tn nf)
  simpa using h

theorem hftc_suppression (s : BridgeState) (live : List LiveCreature) (data : FsData)
    (now : Int) :
    ((handleFirestoreTurnChange s live data now).2 ≠ [] →
      (handleFirestoreTurnChange s live data now).1 =
        { s with suppressITUntil := now + 2000 }) ∧
    ((handleFirestoreTurnChange s live data now).2 = [] →
      (handleFirestoreTurnChange s live data now).1 = s) := by
  simp only [handleFirestoreTurnChange]
  constructor <;> (repeat' split) <;> intro h <;> first | rfl | simp at h

theorem hrem_suppression (s : BridgeState) (live : List LiveCreature) (c : WebappCombatant)
    (now : Int) :
    ((handleRemovedCombatantFromFirestore s live c now).2 ≠ [] →
      (handleRemovedCombatantFromFirestore s live c now).1 =
        { s with suppressITUntil := now + 2000 }) ∧
    ((handleRemovedCombatantFromFirestore s live c now).2 = [] →
      (handleRemovedCombatantFromFirestore s live c now).1 = s) := by
  simp only [handleRemovedCombatantFromFirestore]
  constructor <;> (repeat' split) <;> intro h <;> first | rfl | simp at h

theorem hnew_suppression (s : BridgeState) (live : List LiveCreature) (c : WebappCombatant)
    (now : Int) :
    ((handleNewCombatantFromFirestore s live c now).2.1 ≠ [] →
      (handleNewCombatantFromFirestore s live c now).1 =
        { s with suppressITUntil := now + 2000 }) ∧
    ((handleNewCombatantFromFirestore s live c now).2.1 = [] →
      (handleNewCombatantFromFirestore s live c now).1 = s) := by
  simp only [handleNewCombatantFromFirestore]
  constructor <;> (repeat' split) <;> intro h <;> first | rfl | simp at h

theorem turnChangeStep_inv (s : BridgeState) (live : List LiveCreature) (data : FsData)
    (prevData : Option FsData) (now : Int) :
    (turnChangeStep s live data prevData now).1.suppressFirestoreUntil =
        s.suppressFirestoreUntil ∧
      ((turnChangeStep s live data prevData now).2 ≠ [] →
        (turnChangeStep s live data prevData now).1.suppressITUntil = now + 2000) := by
  cases prevData with
  | none => exact ⟨rfl, fun h => absurd rfl h⟩
  | some p =>
      simp only [turnChangeStep]
      split
      · by_cases h : (handleFirestoreTurnChange s live data now).2 = []
        · rw [(hftc_suppression s live data now).2 h]
          exact ⟨rfl, fun h2 => absurd h h2⟩
        · rw [(hftc_suppression s live data now).1 h]
          exact ⟨rfl, fun _ => rfl⟩
      · exact ⟨rfl, fun h => absurd rfl h⟩

theorem newCombatantsLoop_inv (live : List LiveCreature) (prevC : List WebappCombatant)
    (now : Int) :
    ∀ (combatants : List WebappCombatant) (st : BridgeState) (ws : List ITWrite)
      (asg : List WebappCombatant),
      (ws ≠ [] → st.suppressITUntil = now + 2000) →
      (newCombatantsLoop live prevC combatants now (st, ws, asg)).1.suppressFirestoreUntil =
          st.suppressFirestoreUntil ∧
        ((newCombatantsLoop live prevC combatants now (st, ws, asg)).2.1 ≠ [] →
          (newCombatantsLoop live prevC combatants now (st, ws, asg)).1.suppressITUntil =
            now + 2000) := by
  intro combatants
  induction combatants with
  | nil => intro st ws asg h; exact ⟨rfl, h⟩
  | cons c cs ih =>
      intro st ws asg h
      simp only [newCombatantsLoop, List.foldl_cons]
      split
      · rcases hr : handleNewCombatantFromFirestore st live c now with ⟨st2, ws2, req⟩
        simp only [hr]
        cases ws2 with
        | nil =>
            have hst2 : st2 = st := by
              have h2 := (hnew_suppression st live c now).2
              rw [hr] at h2
              exact h2 rfl
            subst hst2
            rw [List.append_nil]
            exact ih _ _ _ h
        | cons w wtl =>
            have hst2 : st2 = { st with suppressITUntil := now + 2000 } := by
              have h2 := (hnew_suppression st live c now).1
              rw [hr] at h2
              exact h2 (by simp)
            subst hst2
            exact ih _ _ _ fun _ => rfl
      · exact ih st ws asg h

theorem removedCombatantsLoop_inv (live : List LiveCreature)
    (combatants : List WebappCombatant) (now : Int) :
    ∀ (prevC : List WebappCombatant) (st : BridgeState) (ws : List ITWrite),
      (ws ≠ [] → st.suppressITUntil = now + 2000) →
      (removedCombatantsLoop live prevC combatants now (st, ws)).1.suppressFirestoreUntil =
          st.suppressFirestoreUntil ∧
        ((removedCombatantsLoop live prevC combatants now (st, ws)).2 ≠ [] →
          (removedCombatantsLoop live prevC combatants now (st, ws)).1.suppressITUntil =
            now + 2000) := by
  intro prevC
  induction prevC with
  | nil => intro st ws h; exact ⟨rfl, h⟩
  | cons pc pcs ih =>
      intro st ws h
      simp only [removedCombatantsLoop, List.foldl_cons]
      split
      · rcases hr : handleRemovedCombatantFromFirestore st live pc now with ⟨st2, ws2⟩
        simp only [hr]
        cases ws2 with
        | nil =>
            have hst2 : st2 = st := by
              have h2 := (hrem_suppression st live pc now).2
              rw [hr] at h2
              exact h2 rfl
            subst hst2
            rw [List.append_nil]
            exact ih _ _ h
        | cons w wtl =>
            have hst2 : st2 = { st with suppressITUntil := now + 2000 } := by
              have h2 := (hrem_suppression st live pc now).1
              rw [hr] at h2
              exact h2 (by simp)
            subst hst2
            exact ih _ _ fun _ => rfl
      · exact ih st ws h

theorem initiativeLoop_inv (live : List LiveCreature) (prevC : List WebappCombatant)
    (now : Int) :
    ∀ (combatants : List WebappCombatant) (st : BridgeState) (ws : List ITWrite),
      (ws ≠ [] → st.suppressITUntil = now + 2000) →
      (initiativeLoop live prevC combatants now (st, ws)).1.suppressFirestoreUntil =
          st.suppressFirestoreUntil ∧
        ((initiativeLoop live prevC combatants now (st, ws)).2 ≠ [] →
          (initiativeLoop live prevC combatants now (st, ws)).1.suppressITUntil =
            now + 2000) := by
  intro combatants
  induction combatants with
  | nil => intro st ws h; exact ⟨rfl, h⟩
  | cons c cs ih =>
      intro st ws h
      simp only [initiativeLoop, List.foldl_cons]
      cases hp : prevLookup prevC c with
      | none => simp only [hp]; exact ih st ws h
      | some p =>
          simp only [hp]
          split
          · split
            · exact ih _ ws fun _ => rfl
            · exact ih _ _ fun _ => rfl
          · exact ih st ws h

theorem deathLoop_inv (live : List LiveCreature) (prevC : List WebappCombatant)
    (now : Int) :
    ∀ (combatants : List WebappCombatant) (st : BridgeState) (ws : List ITWrite),
      (ws ≠ [] → st.suppressITUntil = now + 2000) →
      (deathLoop live prevC combatants now (st, ws)).1.suppressFirestoreUntil =
          st.suppressFirestoreUntil ∧
        ((deathLoop live prevC combatants now (st, ws)).2 ≠ [] →
          (deathLoop live prevC combatants now (st, ws)).1.suppressITUntil = now + 2000) := by
  intro combatants
  induction combatants with
  | nil => intro st ws h; exact ⟨rfl, h⟩
  | cons c cs ih =>
      intro st ws h
      simp only [deathLoop, List.foldl_cons]
      cases hp : prevLookup prevC c with
      | none => simp only [hp]; exact ih st ws h
      | some p =>
          simp only [hp]
          split
          · split
            · exact ih _ ws fun _ => rfl
            · exact ih _ _ fun _ => rfl
          · exact ih st ws h

theorem handleFirestoreChange_suppression (s : BridgeState) (avail : Bool)
    (live : List LiveCreature) (d : FsData) (prevData : Option FsData) (now : Int) :
    ((handleFirestoreChange s avail live d prevData now).2.1 ≠ [] →
      (handleFirestoreChange s avail live d prevData now).1.suppressITUntil = now + 2000) ∧
    (handleFirestoreChange s avail live d prevData now).1.suppressFirestoreUntil =
      s.suppressFirestoreUntil := by
  cases avail with
  | false => exact ⟨fun h => absurd rfl h, rfl⟩
  | true =>
      simp only [handleFirestoreChange, Bool.not_true, Bool.false_eq_true, if_false]
      have h1 := turnChangeStep_inv s live d prevData now
      generalize hg1 : turnChangeStep s live d prevData now = p1 at h1 ⊢
      obtain ⟨p1s, p1w⟩ := p1
      dsimp only at h1 ⊢
      have h2 := newCombatantsLoop_inv live ((prevData.map (·.combatants)).getD []) now
        d.combatants p1s p1w [] h1.2
      generalize hg2 : newCombatantsLoop live ((prevData.map (·.combatants)).getD [])
        d.combatants now (p1s, p1w, []) = p2 at h2 ⊢
      obtain ⟨p2s, p2w, p2a⟩ := p2
      dsimp only at h2 ⊢
      have h3 := removedCombatantsLoop_inv live d.combatants now
        ((prevData.map (·.combatants)).getD []) p2s p2w h2.2
      generalize hg3 : removedCombatantsLoop live ((prevData.map (·.combatants)).getD [])
        d.combatants now (p2s, p2w) = p3 at h3 ⊢
      obtain ⟨p3s, p3w⟩ := p3
      dsimp only at h3 ⊢
      have h4 := initiativeLoop_inv live ((prevData.map (·.combatants)).getD []) now
        d.combatants p3s p3w h3.2
      generalize hg4 : initiativeLoop live ((prevData.map (·.combatants)).getD [])
        d.combatants now (p3s, p3w) = p4 at h4 ⊢
      obtain ⟨p4s, p4w⟩ := p4
      dsimp only at h4 ⊢
      have h5 := deathLoop_inv live ((prevData.map (·.combatants)).getD []) now
        d.combatants p4s p4w h4.2
      generalize hg5 : deathLoop live ((prevData.map (·.combatants)).getD [])
        d.combatants now (p4s, p4w) = p5 at h5 ⊢
      obtain ⟨p5s, p5w⟩ := p5
      dsimp only at h5 ⊢
      exact ⟨h5.2, h5.1.trans (h4.1.trans (h3.1.trans (h2.1.trans h1.1)))⟩

theorem autoReveal_turn (live : List LiveCreature) (acc : LoopAcc) :
    (autoReveal live acc).1.turn = acc.turn := by
  cases hfind : live.find? fun c => truthyB c.active with
  | none => simp only [autoReveal, hfind]
  | some a =>
      cases hcond : (!a.player && truthyB a.hidden) with
      | false => simp [autoReveal, hfind, hcond]
      | true =>
          cases hf : fsMatchIdx acc.combs a.id a.displayName with
          | none => simp [autoReveal, hfind, hcond, hf]
          | some i =>
              cases hg : acc.combs[i]? with
              | none => simp [autoReveal, hfind, hcond, hf, hg]
              | some fc =>
                  cases hh : truthyB fc.isHiddenFromPlayers with
                  | false => simp [autoReveal, hfind, hcond, hf, hg, hh]
                  | true => simp [autoReveal, hfind, hcond, hf, hg, hh]

/-! Claim theorems. -/

/-- C10: in the local-to-remote field translation, a creature whose currentHP
and hp are both missing yields hp 0 and isDead false (and maxHp 0 whenever its
currentMaxHP fallback is also missing): the dead check defaults the missing HP
to 1 while the hp and maxHp fields default to 0, so a translated combatant can
have zero hit points yet not be marked dead. -/
theorem c10_missing_hp_translation :
    ∀ creature : ITCreatureState, creature.currentHP = none → creature.hp = none →
      (itCreatureToWebappCombatant creature).hp = some 0 ∧
        (itCreatureToWebappCombatant creature).isDead = some false ∧
        (creature.currentMaxHP = none → (itCreatureToWebappCombatant creature).maxHp = some 0) := by
  intro creature h1 h2
  refine ⟨?_, ?_, fun h3 => ?_⟩ <;>
    simp [itCreatureToWebappCombatant, h1, h2, Option.orElse, *]

/-- C10 witness: a concrete creature with no HP data translates to zero hit
points, zero max HP and isDead false. -/
theorem c10_missing_hp_translation_witness :
    (itCreatureToWebappCombatant { name := "Wisp", id := "n1" }).hp = some 0 ∧
      (itCreatureToWebappCombatant { name := "Wisp", id := "n1" }).isDead = some false ∧
      (itCreatureToWebappCombatant { name := "Wisp", id := "n1" }).maxHp = some 0 := by
  obtain ⟨a, b, c⟩ := c10_missing_hp_translation { name := "Wisp", id := "n1" } rfl rfl
  exact ⟨a, b, c rfl⟩

/-- C3 counterexample: calling connect with the local session capability
unreachable does not fail: it returns success, flags the orchestrator
connected and starts both subscriptions, contradicting the claimed fail-fast
behavior with no partial connection state. -/
theorem c3_counterexample :
    (connect {} false [ogreLive] "c" "t").2 = Except.ok () ∧
      (connect {} false [ogreLive] "c" "t").1.isConnected = true ∧
      (connect {} false [ogreLive] "c" "t").1.itSubscribed = true ∧
      (connect {} false [ogreLive] "c" "t").1.firestoreSubscribed = true :=
  ⟨rfl, rfl, rfl, rfl⟩

/-- C3 (amended): connect performs no reachability check on the local session:
with the capability unreachable it still completes successfully, flags the
orchestrator connected, registers both subscriptions (given truthy ids), and
merely starts from an empty baseline snapshot. -/
theorem c3_connect_no_reachability_check :
    ∀ (s : BridgeState) (live : List LiveCreature) (c t : String), c ≠ "" → t ≠ "" →
      (connect s false live c t).2 = Except.ok () ∧
        (connect s false live c t).1.isConnected = true ∧
        (connect s false live c t).1.itSubscribed = true ∧
        (connect s false live c t).1.firestoreSubscribed = true ∧
        (connect s false live c t).1.lastITCreatureIds = [] ∧
        (connect s false live c t).1.lastITCreatureMap = [] := by
  intro s live c t hc ht
  refine ⟨rfl, rfl, rfl, ?_, rfl, rfl⟩
  simp [connect, truthyS, hc, ht]

/-- C3 witness: concrete connect call with unreachable local session. -/
theorem c3_connect_no_reachability_check_witness :
    (connect {} false [] "c" "t").2 = Except.ok () ∧
      (connect {} false [] "c" "t").1.isConnected = true ∧
      (connect {} false [] "c" "t").1.itSubscribed = true ∧
      (connect {} false [] "c" "t").1.firestoreSubscribed = true ∧
      (connect {} false [] "c" "t").1.lastITCreatureIds = [] ∧
      (connect {} false [] "c" "t").1.lastITCreatureMap = [] :=
  c3_connect_no_reachability_check {} [] "c" "t" (by decide) (by decide)

/-- C6: on a local change notification in which the set of previously tracked
identities is non-empty and none of them is still present, the save-state
handler skips the diff entirely: the state is untouched and no remote write
and no local write is produced. -/
theorem c6_new_encounter_guard :
    ∀ (s : BridgeState) (live : List LiveCreature) (r now : Int),
      s.isConnected = true → s.isDisconnecting = false →
      s.lastITCreatureIds ≠ [] →
      (∀ i ∈ s.lastITCreatureIds, i ∉ live.map (·.id)) →
      itSaveStateStep s live r now = (s, none, []) := by
  intro s live r now h1 h2 h3 h4
  have hg : itNewEncounterGuard s live = true := by
    simp only [itNewEncounterGuard, Bool.and_eq_true, decide_eq_true_eq]
    refine ⟨List.length_pos.mpr h3, ?_⟩
    rw [List.length_eq_zero, List.filter_eq_nil_iff]
    intro i hi
    simp [h4 i hi]
  simp [itSaveStateStep, h1, h2, hg]

/-- C6 witness: concrete wiped notification (tracked ogre, empty live list). -/
theorem c6_new_encounter_guard_witness :
    itSaveStateStep ogreState [] 1 5000 = (ogreState, none, []) :=
  c6_new_encounter_guard ogreState [] 1 5000 rfl rfl (by decide) (by decide)

/-- C1: a remote turn-index change resolves the active combatant by sorting
the non-dead combatants with the stable comparator (initiative descending,
ties by the stored tie-breaker descending) and taking the entry at position
turn index modulo list length: on an empty non-dead set the resolution is a
no-op (no activation, no state change); the produced order is a permutation
of the non-dead set sorted by the descending order; when the entry exists and
resolves to a named local creature, exactly that creature is activated under
local-side suppression; and a turn index of 5 over 3 non-dead combatants
resolves to sorted position 2. -/
theorem c1_turn_resolution :
    (∀ (s : BridgeState) (live : List LiveCreature) (data : FsData) (now : Int),
        nonDead data.combatants = [] → handleFirestoreTurnChange s live data now = (s, [])) ∧
    (∀ l : List WebappCombatant,
        (sortCombatants l).Perm l ∧ List.Sorted initLe (sortCombatants l)) ∧
    (∀ (s : BridgeState) (live : List LiveCreature) (data : FsData) (now t : Int)
        (target : WebappCombatant),
        data.turn = some t → 0 ≤ t →
        (sortCombatants (nonDead data.combatants))[t.toNat %
            (sortCombatants (nonDead data.combatants)).length]? = some target →
        findITCreatureName live target ≠ "" →
        handleFirestoreTurnChange s live data now =
          ({ s with suppressITUntil := now + 2000 },
            [ITWrite.setActiveTurn (findITCreatureName live target)])) ∧
    handleFirestoreTurnChange {} [] sampleTurnData 0 =
      ({ suppressITUntil := 2000 }, [ITWrite.setActiveTurn "Cleric"]) := by
  refine ⟨?_, ?_, ?_, ?_⟩
  · intro s live data now h
    simp [handleFirestoreTurnChange, sortCombatants, h]
  · intro l
    exact ⟨List.perm_insertionSort initLe l, List.sorted_insertionSort initLe l⟩
  · intro s live data now t target ht htge htar hname
    have hlen : ¬((sortCombatants (nonDead data.combatants)).length = 0) := by
      intro h0
      rw [List.length_eq_zero] at h0
      rw [h0] at htar
      simp at htar
    simp only [handleFirestoreTurnChange, ht, Option.getD_some]
    rw [if_neg hlen, if_neg (not_lt.mpr htge)]
    simp only [htar]
    rw [if_neg hname]
  · decide

/-- C1 witness: the concrete resolution of turn index 5 over the three sample
combatants, through the general resolution statement. -/
theorem c1_turn_resolution_witness :
    handleFirestoreTurnChange {} [] sampleTurnData 7 =
      ({ suppressITUntil := 2007 }, [ITWrite.setActiveTurn "Cleric"]) :=
  c1_turn_resolution.2.2.1 {} [] sampleTurnData 7 5 sampleCleric rfl (by decide)
    (by decide) (by decide)

/-- C2 counterexample: the claim that every write toward a target sets that
target's suppression deadline is false: at this input the local-change cycle
emits a write toward the local session (the auto-reveal unhide) while the
local-side deadline is left at its stale value 0 instead of now + 2000. -/
theorem c2_counterexample :
    (handleITStateChange goblinState [goblinLive] 10000).2.2 =
        [ITWrite.setHidden "Goblin" false] ∧
      (handleITStateChange goblinState [goblinLive] 10000).1.suppressITUntil = 0 ∧
      (0 : Int) ≠ 10000 + 2000 := by
  refine ⟨by decide, by decide, by decide⟩

/-- C2 (amended): every write the sync-cycle handlers perform toward a target
sets that target's suppression deadline to now + 2000 and leaves the opposite
deadline untouched — per handler (turn change, removal, insertion, identity
write-back) and for the whole remote-change dispatch handleFirestoreChange,
whose write list (turn, initiative and kill writes included) is nonempty only
with the local-side deadline set to now + 2000 while the remote-side deadline
is never touched — with one exception: the auto-reveal unhide write of the
local-change cycle sets no local-side deadline (its echo is absorbed through
the snapshot instead); and a change notification arriving from a target
before its deadline is absorbed into the baseline snapshot without any
reverse diff or write. -/
theorem c2_suppression :
    (∀ (s : BridgeState) (live : List LiveCreature) (data : FsData) (now : Int),
        ((handleFirestoreTurnChange s live data now).2 ≠ [] →
          (handleFirestoreTurnChange s live data now).1 =
            { s with suppressITUntil := now + 2000 }) ∧
        ((handleFirestoreTurnChange s live data now).2 = [] →
          (handleFirestoreTurnChange s live data now).1 = s)) ∧
    (∀ (s : BridgeState) (live : List LiveCreature) (c : WebappCombatant) (now : Int),
        ((handleRemovedCombatantFromFirestore s live c now).2 ≠ [] →
          (handleRemovedCombatantFromFirestore s live c now).1 =
            { s with suppressITUntil := now + 2000 }) ∧
        ((handleRemovedCombatantFromFirestore s live c now).2 = [] →
          (handleRemovedCombatantFromFirestore s live c now).1 = s)) ∧
    (∀ (s : BridgeState) (live : List LiveCreature) (c : WebappCombatant) (now : Int),
        ((handleNewCombatantFromFirestore s live c now).2.1 ≠ [] →
          (handleNewCombatantFromFirestore s live c now).1 =
            { s with suppressITUntil := now + 2000 }) ∧
        ((handleNewCombatantFromFirestore s live c now).2.1 = [] →
          (handleNewCombatantFromFirestore s live c now).1 = s)) ∧
    (∀ (s : BridgeState) (live : List LiveCreature) (c : WebappCombatant) (now : Int),
        ((assignObsidianId s live c now).2.isSome = true →
          (assignObsidianId s live c now).1 =
            { s with suppressFirestoreUntil := now + 2000 }) ∧
        ((assignObsidianId s live c now).2 = none →
          (assignObsidianId s live c now).1 = s)) ∧
    (∀ (s : BridgeState) (avail : Bool) (live : List LiveCreature) (d : FsData)
        (prevData : Option FsData) (now : Int),
        ((handleFirestoreChange s avail live d prevData now).2.1 ≠ [] →
          (handleFirestoreChange s avail live d prevData now).1.suppressITUntil =
            now + 2000) ∧
        (handleFirestoreChange s avail live d prevData now).1.suppressFirestoreUntil =
          s.suppressFirestoreUntil) ∧
    (∀ (s : BridgeState) (live : List LiveCreature) (now : Int),
        ((handleITStateChange s live now).2.1.isSome = true →
          (handleITStateChange s live now).1.suppressFirestoreUntil = now + 2000) ∧
        ((handleITStateChange s live now).2.1 = none →
          (handleITStateChange s live now).1.suppressFirestoreUntil =
            s.suppressFirestoreUntil) ∧
        (handleITStateChange s live now).1.suppressITUntil = s.suppressITUntil) ∧
    (∀ (s : BridgeState) (avail : Bool) (live : List LiveCreature) (d : FsData) (now : Int),
        now < s.suppressFirestoreUntil →
        firestoreSnapshotStep s avail live (FsEvent.snapshot d) now =
          ({ s with lastFirestoreState := some d }, [], [])) ∧
    (∀ (s : BridgeState) (live : List LiveCreature) (r now : Int),
        s.isConnected = true → s.isDisconnecting = false →
        itNewEncounterGuard s live = false → now < s.suppressITUntil →
        itSaveStateStep s live r now =
          ({ s with
              lastITCreatureIds := (snapshotITState live).1
              lastITCreatureMap := (snapshotITState live).2 }, none, [])) := by
  refine ⟨?_, ?_, ?_, ?_, ?_, ?_, ?_, ?_⟩
  · intro s live data now
    exact hftc_suppression s live data now
  · intro s live c now
    exact hrem_suppression s live c now
  · intro s live c now
    exact hnew_suppression s live c now
  · intro s live c now
    simp only [assignObsidianId]
    constructor <;> (repeat' split) <;> intro h <;> first | rfl | simp at h
  · intro s avail live d prevData now
    exact handleFirestoreChange_suppression s avail live d prevData now
  · intro s live now
    simp only [handleITStateChange]
    refine ⟨?_, ?_, ?_⟩
    · (repeat' split) <;> intro h <;> first | rfl | simp at h
    · (repeat' split) <;> intro h <;> first | rfl | simp at h
    · (repeat' split) <;> rfl
  · intro s avail live d now h
    simp [firestoreSnapshotStep, h]
  · intro s live r now h1 h2 hg h4
    simp [itSaveStateStep, h1, h2, hg, h4]

/-- C2 witness: a concrete remote notification arriving inside the remote
suppression window is absorbed into the baseline without any write. -/
theorem c2_suppression_witness :
    firestoreSnapshotStep { suppressFirestoreUntil := 100 } true []
        (FsEvent.snapshot sampleTurnData) 50 =
      ({ suppressFirestoreUntil := 100, lastFirestoreState := some sampleTurnData }, [], []) :=
  c2_suppression.2.2.2.2.2.2.1 { suppressFirestoreUntil := 100 } true [] sampleTurnData 50
    (by decide)

/-- C4: the local-to-remote cycle never removes a combatant from the shared
record: whenever it writes a combatant list, every previously known remote
combatant is still present at its position with name, record id and bridge
identity intact (local removals are logged only, and the full list written is
the mutated current list plus appended new monsters); a remote-origin removal,
by contrast, removes the matching local combatant by resolved name. -/
theorem c4_asymmetric_removal :
    (∀ (s : BridgeState) (live : List LiveCreature) (now : Int) (u : FsUpdate)
        (lst : List WebappCombatant),
        (handleITStateChange s live now).2.1 = some u → u.combatants = some lst →
        (lst.take (currentCombatants s).length).map identityOf =
          (currentCombatants s).map identityOf) ∧
    (∀ (s : BridgeState) (live : List LiveCreature) (c : WebappCombatant) (now : Int),
        findITCreatureName live c ≠ "" →
        handleRemovedCombatantFromFirestore s live c now =
          ({ s with suppressITUntil := now + 2000 },
            [ITWrite.removeByName (findITCreatureName live c)])) := by
  constructor
  · intro s live now u lst hu hl
    simp only [handleITStateChange] at hu
    split at hu
    · exact absurd hu (by simp)
    · split at hu
      · split at hu
        · replace hu := (Option.some.inj hu)
          subst hu
          dsimp only at hl
          replace hl := Option.some.inj hl
          subst hl
          rw [← combs_length s live (currentCombatants s) none, List.take_left]
          exact combs_identities s live (currentCombatants s) none _
        · exact absurd hu (by simp)
      · split at hu
        · replace hu := (Option.some.inj hu)
          subst hu
          dsimp only at hl
          exact absurd hl (by simp)
        · exact absurd hu (by simp)
  · intro s live c now h
    simp [handleRemovedCombatantFromFirestore, h]

/-- C4 witness: a concrete cycle that writes a combatant list keeps the one
previously known remote combatant in place; and a concrete remote removal
produces the matching local removal write. -/
theorem c4_asymmetric_removal_witness :
    (([wispFcAfter].take (currentCombatants wispState).length).map identityOf =
        (currentCombatants wispState).map identityOf) ∧
      handleRemovedCombatantFromFirestore ogreState [ogreLive] ogreFc 40 =
        ({ ogreState with suppressITUntil := 2040 }, [ITWrite.removeByName "Ogre"]) :=
  ⟨c4_asymmetric_removal.1 wispState [wispLive] 0 wispUpdate [wispFcAfter]
      (by decide) (by decide),
    c4_asymmetric_removal.2 ogreState [ogreLive] ogreFc 40 (by decide)⟩

/-- C5 counterexample: the claim that a bridge identity is never reassigned,
including when two combatants share a display name, is false: after the
remote-origin insert of the identity-less Goblin requests an assignment, the
write-back stamps the new creature id onto every same-named combatant,
overwriting the first Goblin's stored identity x with y. -/
theorem c5_counterexample :
    (handleNewCombatantFromFirestore assignState [] assignB 0).2.2 = true ∧
      (assignObsidianId assignState [assignLive] assignB 0).2 =
        some [{ assignA with obsidianId := some "y" },
          { assignB with obsidianId := some "y" }] ∧
      assignA.obsidianId = some "x" ∧
      (some "x" : Option String) ≠ (some "y" : Option String) := by
  refine ⟨by decide, by decide, by decide, by decide⟩

/-- C5 (amended): a bridge identity is assigned exactly once at creation by
createRecord, appended entries of mergeRecord come only from non-player local
creatures, a remote-origin insert requests an assignment only when the stored
identity is absent, and the assignment write-back leaves every combatant
whose record id and display name both differ from the target untouched; when
another combatant shares the target's display name, however, its identity is
overwritten by that same write-back. -/
theorem c5_identity_assignment :
    (∀ (live : List LiveCreature) (name : String) (now : Int) (i : Nat) (c : LiveCreature),
        live[i]? = some c →
        ((createNewTracker live name now).combatants)[i]? = some (toNewCombatant c now) ∧
          (toNewCombatant c now).obsidianId = some c.id) ∧
    (∀ (existing : List WebappCombatant) (live : List LiveCreature) (now : Int)
        (l : List WebappCombatant),
        mergeWithExistingTracker existing live now = some l →
        l.take existing.length = existing ∧
          ∀ fc ∈ l.drop existing.length,
            ∃ c ∈ live, fc = toNewCombatant c now ∧ c.st.player = false) ∧
    (∀ (s : BridgeState) (live : List LiveCreature) (combatant : WebappCombatant) (now : Int)
        (lst : List WebappCombatant),
        (assignObsidianId s live combatant now).2 = some lst →
        ∀ (i : Nat) (c : WebappCombatant), (currentCombatants s)[i]? = some c →
          c.id ≠ combatant.id → c.name ≠ combatant.name → lst[i]? = some c) ∧
    (∀ (s : BridgeState) (live : List LiveCreature) (c : WebappCombatant) (now : Int),
        (handleNewCombatantFromFirestore s live c now).2.2 = true →
        truthyS c.obsidianId = false) := by
  refine ⟨?_, ?_, ?_, ?_⟩
  · intro live name now i c hi
    constructor
    · simp only [createNewTracker, List.getElem?_map, hi, Option.map_some']
    · rfl
  · intro existing live now l h
    simp only [mergeWithExistingTracker] at h
    split at h
    · replace h := Option.some.inj h
      subst h
      refine ⟨List.take_left existing _, ?_⟩
      rw [List.drop_left]
      intro fc hfc
      obtain ⟨c, hc, hfc⟩ := List.mem_filterMap.mp hfc
      split at hfc
      · exact absurd hfc (by simp)
      · split at hfc
        · exact absurd hfc (by simp)
        · rename_i hplayer
          exact ⟨c, hc, (Option.some.inj hfc).symm, by simpa using hplayer⟩
    · exact absurd h (by simp)
  · intro s live combatant now lst h i c hi hid hname
    simp only [assignObsidianId] at h
    split at h
    · exact absurd h (by simp)
    · split at h
      · exact absurd h (by simp)
      · replace h := Option.some.inj h
        subst h
        simp only [List.getElem?_map, hi, Option.map_some']
        simp [hid, hname]
  · intro s live c now h
    simp only [handleNewCombatantFromFirestore] at h
    split at h
    · exact absurd h (by simp)
    · split at h
      · exact absurd h (by simp)
      · simpa using h

/-- C5 witness: createRecord assigns the ogre creature id as the bridge
identity of the combatant it creates at position 0. -/
theorem c5_identity_assignment_witness :
    ((createNewTracker [ogreLive] "Camp" 3).combatants)[0]? =
        some (toNewCombatant ogreLive 3) ∧
      (toNewCombatant ogreLive 3).obsidianId = some ogreLive.id :=
  c5_identity_assignment.1 [ogreLive] "Camp" 3 0 ogreLive (by decide)

/-- C7 counterexample: when the remote side advances the turn onto a hidden
non-player combatant, the update performs only the local activation: no unhide
write is emitted and the stored remote state (hidden flag included) is left
untouched, so the hidden flag is not cleared on both sides as part of the
same update. -/
theorem c7_counterexample :
    (handleFirestoreTurnChange shadeState [shadeLive] shadeData 100).2 =
        [ITWrite.setActiveTurn "Shade"] ∧
      (handleFirestoreTurnChange shadeState [shadeLive] shadeData 100).1.lastFirestoreState =
        some shadeData ∧
      shadeFc.isHiddenFromPlayers = some true ∧
      shadeLive.hidden = some true ∧
      shadeLive.player = false := by
  refine ⟨by decide, by decide, by decide, by decide, by decide⟩

/-- C7 (amended): the auto-reveal runs only in the local-change cycle: when the
active creature is a hidden non-player and its matched remote combatant is
flagged hidden, one and the same update clears the remote flag in the written
list and emits the local unhide write; a turn advanced from the remote side
does not clear the flag in its own update. -/
theorem c7_auto_reveal :
    (∀ (live : List LiveCreature) (acc : LoopAcc) (a : LiveCreature) (i : Nat)
        (fc : WebappCombatant),
        (live.find? fun c => truthyB c.active) = some a →
        a.player = false → truthyB a.hidden = true →
        fsMatchIdx acc.combs a.id a.displayName = some i →
        acc.combs[i]? = some fc →
        truthyB fc.isHiddenFromPlayers = true →
        autoReveal live acc =
          ({ acc with
              combs := acc.combs.set i { fc with isHiddenFromPlayers := some false }
              needsFull := true },
            [ITWrite.setHidden a.displayName false])) ∧
    ((handleITStateChange goblinState [goblinLive] 10000).2.2 =
        [ITWrite.setHidden "Goblin" false] ∧
      (handleITStateChange goblinState [goblinLive] 10000).2.1 =
        some { turn := some 0, combatants := some [goblinFcRevealed] } ∧
      (handleITStateChange goblinState [goblinLive] 10000).1.lastITCreatureMap =
        [("g1", { goblinPrev with hidden := false, active := true })]) := by
  constructor
  · intro live acc a i fc hfind hpl hhid hf hg hfc
    simp [autoReveal, hfind, hpl, hhid, hf, hg, hfc]
  · refine ⟨by decide, by decide, by decide⟩

/-- C7 witness: the auto-reveal at the concrete goblin input clears the remote
flag in the array and emits the local unhide write. -/
theorem c7_auto_reveal_witness :
    autoReveal [goblinLive] { combs := [goblinFc] } =
      ({ combs := [goblinFcRevealed], needsFull := true },
        [ITWrite.setHidden "Goblin" false]) :=
  c7_auto_reveal.1 [goblinLive] { combs := [goblinFc] } goblinLive 0 goblinFc
    (by decide) (by decide) (by decide) (by decide) (by decide) (by decide)

/-- C8 counterexample: with the local round at 2 and the remote round at 1, a
local not-active-to-active transition writes the new turn index but no round
field: the update carries no round key and the stored remote round stays 1,
so the remote round counter is not advanced when the local round increased. -/
theorem c8_counterexample :
    (itSaveStateStep ogreState [ogreLive] 2 5000).2.1 = some { turn := some 0 } ∧
      (itSaveStateStep ogreState [ogreLive] 2 5000).1.lastFirestoreState.map (·.round) =
        some (some 1) := by
  refine ⟨by decide, by decide⟩

/-- C8 (amended): when a tracked creature with a remote match transitions from
not-active to active — regardless of any simultaneous hp, hidden or initiative
change — the cycle recomputes the stable non-dead order (initiative
descending, ties by tie-breaker descending) over the current remote list as
mutated so far and records that creature's position in it as the new turn
index, keeping the previous turn candidate when the creature is not found in
that order; every update the cycle emits carries exactly the per-creature
fold's final turn value; the remote round counter, however, is never written:
every update the cycle emits has no round field. -/
theorem c8_local_turn_sync :
    (∀ (s : BridgeState) (acc : LoopAcc) (c : LiveCreature) (prev : PrevCreature)
        (i : Nat) (fc0 : WebappCombatant),
        mapGetLast s.lastITCreatureMap c.id = some prev →
        fsMatchIdx acc.combs c.id c.displayName = some i →
        acc.combs[i]? = some fc0 →
        truthyB c.active = true → prev.active = false →
        (∀ j : Nat,
          ((sortCombatants (nonDead (creatureStep s acc c).combs)).findIdx? fun fcx =>
              decide (fcx.obsidianId = some c.id) || decide (fcx.name = c.displayName)) =
            some j →
          (creatureStep s acc c).turn = some (j : Int)) ∧
        (((sortCombatants (nonDead (creatureStep s acc c).combs)).findIdx? fun fcx =>
              decide (fcx.obsidianId = some c.id) || decide (fcx.name = c.displayName)) =
            none →
          (creatureStep s acc c).turn = acc.turn)) ∧
    (∀ (s : BridgeState) (live : List LiveCreature) (now : Int) (u : FsUpdate),
        (handleITStateChange s live now).2.1 = some u →
        u.turn = (live.foldl (creatureStep s)
          { combs := currentCombatants s
            turn := none
            needsFull := !((live.filter (isNewMonster s (currentCombatants s))).map
              (toNewCombatant · now)).isEmpty }).turn) ∧
    (∀ (s : BridgeState) (live : List LiveCreature) (now : Int) (u : FsUpdate),
        (handleITStateChange s live now).2.1 = some u → u.round = none) := by
  refine ⟨?_, ?_, ?_⟩
  · intro s acc c prev i fc0 hprev hf hg hact hpact
    have e4 : (truthyB c.active && !prev.active) = true := by simp [hact, hpact]
    constructor
    · intro j hj
      simp only [creatureStep, hprev, hf, hg] at hj
      simp only [creatureStep, hprev, hf, hg, e4, eq_self_iff_true, if_true, hj]
    · intro hj
      simp only [creatureStep, hprev, hf, hg] at hj
      simp only [creatureStep, hprev, hf, hg, e4, eq_self_iff_true, if_true, hj]
  · intro s live now u hu
    simp only [handleITStateChange] at hu
    split at hu
    · exact absurd hu (by simp)
    · split at hu
      · split at hu
        · replace hu := Option.some.inj hu
          subst hu
          exact autoReveal_turn live _
        · exact absurd hu (by simp)
      · split at hu
        · replace hu := Option.some.inj hu
          subst hu
          exact autoReveal_turn live _
        · exact absurd hu (by simp)
  · intro s live now u hu
    simp only [handleITStateChange] at hu
    split at hu
    · exact absurd hu (by simp)
    · split at hu
      · split at hu
        · replace hu := Option.some.inj hu
          subst hu
          rfl
        · exact absurd hu (by simp)
      · split at hu
        · replace hu := Option.some.inj hu
          subst hu
          rfl
        · exact absurd hu (by simp)

/-- C8 witness: the concrete ogre transition records turn index 0, the ogre's
position in the sorted non-dead order of the mutated list. -/
theorem c8_local_turn_sync_witness :
    (creatureStep ogreState { combs := [ogreFc] } ogreLive).turn = some 0 :=
  (c8_local_turn_sync.1 ogreState { combs := [ogreFc] } ogreLive ogrePrev 0 ogreFc
    (by decide) (by decide) (by decide) (by decide) (by decide)).1 0 (by decide)

theorem creatureStep_fixed (s : BridgeState) (acc : LoopAcc) (c : LiveCreature)
    (hprev : mapGetLast s.lastITCreatureMap c.id = some (snapshotOf c))
    (hhp : c.hp.isSome = true) (hini : c.initiative.isSome = true)
    (hhid : c.hidden.isSome = true) :
    creatureStep s acc c = acc := by
  obtain ⟨v, hv⟩ := Option.isSome_iff_exists.mp hhp
  obtain ⟨w, hw⟩ := Option.isSome_iff_exists.mp hini
  obtain ⟨b, hb⟩ := Option.isSome_iff_exists.mp hhid
  have e1 : (!c.player && decide (c.hp ≠ some (snapshotOf c).hp)) = false := by
    simp [snapshotOf, hv]
  have e2 : decide (c.hidden ≠ some (snapshotOf c).hidden) = false := by
    simp [snapshotOf, hb]
  have e3 : decide (c.initiative ≠ some (snapshotOf c).initiative) = false := by
    simp [snapshotOf, hw]
  have e4 : (truthyB c.active && !(snapshotOf c).active) = false := by
    simp [snapshotOf, truthyB]
  cases hf : fsMatchIdx acc.combs c.id c.displayName with
  | none => simp only [creatureStep, hprev, hf]
  | some i =>
      cases hg : acc.combs[i]? with
      | none => simp only [creatureStep, hprev, hf, hg]
      | some fc0 =>
          simp only [creatureStep, hprev, hf, hg]
          rw [e1, e2, e3, e4]
          simp only [Bool.false_eq_true, if_false, list_set_self _ _ _ hg, Bool.or_false]

/-- C9 counterexample: the tracked snapshot of this state is exactly the
snapshot of the live list (both were just made identical), yet the cycle still
emits a write: a creature with an absent hp property is re-detected as changed
every run, because the snapshot defaults the missing hp to 0 while the
comparison uses the raw value, so the second run is not write-free. -/
theorem c9_counterexample :
    wispState.lastITCreatureIds = (snapshotITState [wispLive]).1 ∧
      wispState.lastITCreatureMap = (snapshotITState [wispLive]).2 ∧
      (handleITStateChange wispState [wispLive] 0).2.1 = some wispUpdate := by
  refine ⟨rfl, rfl, by decide⟩

/-- C9 (amended): the diff of two identical combatant snapshots is empty in
all three sets; and a local-to-remote cycle whose tracked snapshot agrees with
the live state produces no remote write and no local write, provided each live
creature carries its hp, initiative and hidden properties and no auto-reveal
is pending against the current remote list (a creature with an absent
property, or a pending reveal on a newly appended hidden monster, is
re-detected and written again on the second run). -/
theorem c9_idempotence :
    (∀ l : List WebappCombatant,
        diffCombatants l l = { added := [], removed := [], changed := [] }) ∧
    (∀ (s : BridgeState) (live : List LiveCreature) (now : Int),
        s.lastITCreatureIds = (snapshotITState live).1 →
        s.lastITCreatureMap = (snapshotITState live).2 →
        (live.map (·.id)).Nodup →
        (∀ c ∈ live,
          c.hp.isSome = true ∧ c.initiative.isSome = true ∧ c.hidden.isSome = true) →
        autoRevealPending (currentCombatants s) live = false →
        (handleITStateChange s live now).2.1 = none ∧
          (handleITStateChange s live now).2.2 = []) := by
  constructor
  · intro l
    simp only [diffCombatants, DiffResult.mk.injEq]
    refine ⟨?_, ?_, ?_⟩
    · rw [List.filter_eq_nil_iff]
      intro c hc
      simp
      exact ⟨c, hc, rfl⟩
    · rw [List.filter_eq_nil_iff]
      intro c hc
      simp
      exact ⟨c, hc, rfl⟩
    · rw [List.filterMap_eq_nil_iff]
      intro n hn
      cases h : mapGetLastByName l n with
      | none => simp [h]
      | some c =>
          have hcc : computeChanges c c = {} := by simp [computeChanges]
          simp [h, hcc, changesIsEmpty]
  · intro s live now h1 h2 h3 h4 h5
    by_cases hguard : (!truthyS s.caravanId || !truthyS s.trackerId) = true
    · constructor <;> simp [handleITStateChange, hguard]
    · rw [Bool.not_eq_true] at hguard
      have hnew : live.filter (isNewMonster s (currentCombatants s)) = [] := by
        rw [List.filter_eq_nil_iff]
        intro c hc
        have hmem : c.id ∈ s.lastITCreatureIds := by
          rw [h1]
          exact List.mem_map_of_mem (·.id) hc
        simp [isNewMonster, hmem]
      constructor <;>
      · simp only [handleITStateChange, hguard, Bool.false_eq_true, if_false, hnew,
          List.map_nil, List.isEmpty_nil, Bool.not_true]
        rw [foldl_fixed (creatureStep s)
          { combs := currentCombatants s, turn := none, needsFull := false } live
          (fun c hc => creatureStep_fixed s _ c
            (by rw [h2]; exact mapGetLast_snapshot live c h3 hc)
            (h4 c hc).1 (h4 c hc).2.1 (h4 c hc).2.2)]
        rw [autoReveal_of_not_pending live _ h5]
        rfl

/-- C9 witness: the diff of a concrete snapshot against itself is empty, and a
concrete cycle whose snapshot agrees with the live state produces no writes. -/
theorem c9_idempotence_witness :
    diffCombatants [ogreFc] [ogreFc] = { added := [], removed := [], changed := [] } ∧
      ((handleITStateChange calmState [calmLive] 99).2.1 = none ∧
        (handleITStateChange calmState [calmLive] 99).2.2 = []) :=
  ⟨c9_idempotence.1 [ogreFc],
    c9_idempotence.2 calmState [calmLive] 99 rfl rfl (by decide) (by decide) (by decide)⟩

end HwyBridge
